import Mathlib

/-!
Verification development for the `wialongo` client library (src/wialon.go).

The Go source is shallowly embedded:
* Go maps (`map[string]T`) become association lists `List (String × α)`;
  insertion (`m[k] = v`) replaces the first binding of the key in place or
  appends, lookup reads the first binding, so the list faithfully models a
  map whenever it arises from insertions.  `lastGet` gives the value the Go
  map would hold after inserting the bindings of a list in order (last
  write wins), which is what JSON unmarshalling of duplicate keys and
  `range`-driven merges produce.
* Go `interface{}` values reachable from the program are the inductive
  `GoValue` (strings, ints, floats, bools, nil, slices, string-keyed maps);
  `float64` is modelled as a rational number, which is exact for every
  finite float value.
* Parsed JSON documents are the inductive `Jval`; a response body is an
  `Option Jval`, `none` standing for a body that is not valid JSON (in
  which case `json.Unmarshal` reports an error and leaves the target map
  empty, as does unmarshalling a non-object document into a map).
* Byte-indexed Go string slicing is modelled with character indices; the
  two agree on ASCII data, and every string the program slices is ASCII.
* A Go `panic` is modelled by returning `none` from an `Option`-valued
  function.
* The HTTP exchange is external I/O: `WialonAPICall` returns the mutated
  client together with the url-encoded field map it would post, and
  `Login` / `Logout` / `ErrorHandler` take the (parsed) response body as an
  argument.
-/

namespace Wialongo

/-! ### Association-list maps (Go `map[string]T`) -/

/-- Lookup of the first binding of a key: the value a Go map holds when the
list was built by `mapSet` insertions. -/
def mapGet {α : Type} : List (String × α) → String → Option α
  | [], _ => none
  | (k', v) :: rest, k => if k = k' then some v else mapGet rest k

/-- Go map insertion `m[k] = v`: replace the first binding in place, or
append a new binding. -/
def mapSet {α : Type} : List (String × α) → String → α → List (String × α)
  | [], k, v => [(k, v)]
  | (k', v') :: rest, k, v =>
      if k' = k then (k', v) :: rest else (k', v') :: mapSet rest k v

/-- Value of the LAST binding of a key in a list: what a Go map holds after
inserting the bindings in order (duplicate keys: last write wins). -/
def lastGet {α : Type} : List (String × α) → String → Option α
  | [], _ => none
  | (k', v) :: rest, k =>
      match lastGet rest k with
      | some w => some w
      | none => if k = k' then some v else none

/-- Folding Go map insertions of transformed values over a list: the result
of a `for k, v := range src { dst[k] = f(v) }` loop. -/
def foldSet {α β : Type} (f : α → β) (m : List (String × β))
    (ps : List (String × α)) : List (String × β) :=
  ps.foldl (fun acc kv => mapSet acc kv.1 (f kv.2)) m

/-! ### Values -/

/-- Parsed JSON documents (`encoding/json` results).  Numbers are modelled
as rationals: every finite `float64` produced by `json.Unmarshal` is a
rational number, exactly. -/
inductive Jval where
  | null : Jval
  | bool (b : Bool) : Jval
  | num (q : Rat) : Jval
  | str (s : String) : Jval
  | arr (elems : List Jval) : Jval
  | obj (fields : List (String × Jval)) : Jval

/-- Go `interface{}` values the program stores in parameter maps. -/
inductive GoValue where
  | str (s : String) : GoValue
  | int (n : Int) : GoValue
  | float (q : Rat) : GoValue
  | bool (b : Bool) : GoValue
  | null : GoValue
  | arr (elems : List GoValue) : GoValue
  | map (fields : List (String × GoValue)) : GoValue

/-- `json.Unmarshal(body, &m)` for `m : map[string]interface{}`:
the fields of a JSON object, the empty map on invalid JSON or a
non-object document (`Unmarshal` validates first, then reports an error
without touching `m`). -/
def unmarshalObj : Option Jval → List (String × Jval)
  | some (Jval.obj fields) => fields
  | _ => []

/-! ### Service-name normalisation (wialon.go lines 167-173) -/

/-- `strings.HasPrefix` on character lists. -/
def hasPfx : List Char → List Char → Bool
  | [], _ => true
  | _ :: _, [] => false
  | p :: ps, c :: cs => p == c && hasPfx ps cs

/-- `strings.HasPrefix(s, pre)`. -/
def strHasPfx (pre s : String) : Bool := hasPfx pre.toList s.toList

/-- `strings.Replace(s, "_", "/", 1)` on the character list. -/
def replaceFirstUS : List Char → List Char
  | [] => []
  | c :: rest => if c = '_' then '/' :: rest else c :: replaceFirstUS rest

/-- `strings.Replace(svc, "_", "/", 1)`. -/
def goReplaceFirst (s : String) : String := (replaceFirstUS s.toList).asString

/-- The service-name normalisation inside `WialonAPICall`:
`if strings.HasPrefix(svc, "unit_group") { svc = svc[0:10] + "/" + svc[11:] }
else { svc = strings.Replace(svc, "_", "/", 1) }`.
`svc[11:]` panics (`none`) when the string is shorter than 11 bytes. -/
def normalizeSvc (svc : String) : Option String :=
  if strHasPfx "unit_group" svc then
    if svc.length < 11 then none
    else some (svc.take 10 ++ "/" ++ svc.drop 11)
  else some (goReplaceFirst svc)

/-- The normalisation as claim C1 words it, for comparison with the code's
`normalizeSvc`: for a name starting with the ten-character literal
`unit_group`, the slash is INSERTED immediately after that ten-character
segment (so nothing is dropped); otherwise the first underscore is
replaced.  This definition follows the claim text, not the source. -/
def claimC1NormalizeSvc (svc : String) : String :=
  if strHasPfx "unit_group" svc then svc.take 10 ++ "/" ++ svc.drop 10
  else goReplaceFirst svc

/-! ### Decimal rendering of numbers

`fmt.Sprintf("%g", f)` and `encoding/json`'s float encoder both print the
shortest decimal digit string for the value, choosing between fixed and
scientific notation by the decimal exponent.  On the rational model of
`float64` (every finite float is a dyadic rational, whose shortest decimal
form is its exact finite decimal expansion) this is computed below. -/

/-- Exponent of `p` in `n` (how many times `p` divides `n`), fuel-bounded;
called with fuel `n`, which always suffices. -/
def pExp (p : Nat) : Nat → Nat → Nat
  | 0, _ => 0
  | fuel + 1, n => if 1 < p ∧ 0 < n ∧ n % p = 0 then pExp p fuel (n / p) + 1 else 0

/-- Strip trailing `'0'` characters from a digit list. -/
def stripZeros (ds : List Char) : List Char :=
  (ds.reverse.dropWhile (fun c => c = '0')).reverse

/-- Sign, significant digits (most significant first, no trailing zeros)
and decimal-point position of a nonzero finite-decimal rational:
the value is `±0.digits × 10 ^ dp`. -/
structure DecRepr where
  neg : Bool
  digits : List Char
  dp : Int

/-- Exact decimal representation of a rational with finite decimal
expansion.  For zero, or a denominator not of the form `2^a * 5^b`
(impossible for a `float64` value), a dummy representation of `0`. -/
def decReprOf (q : Rat) : DecRepr :=
  let n := q.num.natAbs
  let d := q.den
  let a := pExp 2 d d
  let b := pExp 5 d d
  if q = 0 ∨ 2 ^ a * 5 ^ b ≠ d then ⟨false, ['0'], 1⟩
  else
    let k := max a b
    let m := n * 10 ^ k / d
    let ds := Nat.toDigits 10 m
    let stripped := stripZeros ds
    let t := ds.length - stripped.length
    ⟨decide (q < 0), stripped, (stripped.length : Int) + t - k⟩

/-- A string of `n` zero digits. -/
def zeros (n : Nat) : String := String.mk (List.replicate n '0')

/-- Fixed-point rendering of `0.digits × 10 ^ dp` (strconv verb `'f'`,
shortest form: no trailing fractional zeros, no exponent). -/
def fixedFormat (digits : List Char) (dp : Int) : String :=
  if dp ≤ 0 then "0." ++ zeros (-dp).toNat ++ digits.asString
  else if (digits.length : Int) ≤ dp then
    digits.asString ++ zeros (dp - digits.length).toNat
  else (digits.take dp.toNat).asString ++ "." ++ (digits.drop dp.toNat).asString

/-- Exponent suffix `±dd`.  `pad2neg` tells whether a negative exponent is
padded to two digits: strconv pads always, while `encoding/json` rewrites
`e-0X` to `e-X` afterwards. -/
def expPart (e : Int) (pad2neg : Bool) : String :=
  let s := (Nat.toDigits 10 e.natAbs).asString
  let padded := if s.length < 2 ∧ (0 ≤ e ∨ pad2neg) then "0" ++ s else s
  (if e < 0 then "-" else "+") ++ padded

/-- Scientific rendering `d.ddd e±XX` of `0.digits × 10 ^ (exp + 1)`
(strconv verb `'e'`, shortest form). -/
def sciFormat (digits : List Char) (exp : Int) (pad2neg : Bool) : String :=
  (digits.take 1).asString ++
    (if digits.length ≤ 1 then "" else "." ++ (digits.drop 1).asString) ++
    "e" ++ expPart exp pad2neg

/-- `fmt.Sprintf("%g", f)`: shortest digits; scientific notation when the
decimal exponent is below `-4` or at least `6`, fixed notation otherwise. -/
def goFormatG (q : Rat) : String :=
  if q = 0 then "0"
  else
    let r := decReprOf q
    let exp := r.dp - 1
    let body :=
      if exp < -4 ∨ 6 ≤ exp then sciFormat r.digits exp true
      else fixedFormat r.digits r.dp
    (if r.neg then "-" else "") ++ body

/-- `encoding/json`'s encoding of a `float64`: shortest digits, scientific
notation exactly when `|f| < 1e-6` or `|f| >= 1e21`, with the `e-0X`
exponent shortened to `e-X`. -/
def jsonFloatEncode (q : Rat) : String :=
  if q = 0 then "0"
  else
    let r := decReprOf q
    let exp := r.dp - 1
    let body :=
      if |q| < mkRat 1 1000000 ∨ (10 : Rat) ^ (21 : Nat) ≤ |q| then
        sciFormat r.digits exp false
      else fixedFormat r.digits r.dp
    (if r.neg then "-" else "") ++ body

/-! ### `json.Marshal` -/

/-- Lower-case hexadecimal digit. -/
def hexDigit (n : Nat) : Char :=
  if n < 10 then Char.ofNat (48 + n) else Char.ofNat (87 + n % 16)

/-- `encoding/json` escaping of one character inside a string literal
(HTML-safe by default: `<`, `>`, `&` and U+2028/U+2029 are escaped). -/
def escapeChar (c : Char) : String :=
  if c = '"' then "\\\""
  else if c = '\\' then "\\\\"
  else if c = '\n' then "\\n"
  else if c = '\r' then "\\r"
  else if c = '\t' then "\\t"
  else if c = '<' then "\\u003c"
  else if c = '>' then "\\u003e"
  else if c = '&' then "\\u0026"
  else if c.toNat < 32 then
    "\\u00" ++ String.mk [hexDigit (c.toNat / 16), hexDigit (c.toNat % 16)]
  else if c.toNat = 0x2028 then "\\u2028"
  else if c.toNat = 0x2029 then "\\u2029"
  else String.singleton c

/-- A JSON string literal for `s`, as `json.Marshal` prints it. -/
def jsonQuote (s : String) : String :=
  "\"" ++ String.join (s.toList.map escapeChar) ++ "\""

/-- Insert a binding into a key-sorted field list (`json.Marshal` emits map
fields sorted by key). -/
def insertByKey {α : Type} (kv : String × α) :
    List (String × α) → List (String × α)
  | [] => [kv]
  | h :: t => if kv.1 ≤ h.1 then kv :: h :: t else h :: insertByKey kv t

/-- Sort a field list by key (insertion sort; stable; byte-wise key order
as in Go's sorted map marshalling — on Unicode, UTF-8 byte order agrees
with code-point order). -/
def sortByKey {α : Type} : List (String × α) → List (String × α)
  | [] => []
  | h :: t => insertByKey h (sortByKey t)

/-- Comma-separated concatenation. -/
def joinComma : List String → String
  | [] => ""
  | [x] => x
  | x :: y :: rest => x ++ "," ++ joinComma (y :: rest)

mutual

/-- `json.Marshal` on the `interface{}` values of `GoValue`: `nil` is
`null`, booleans are literals, strings are escaped literals, `int`s are
decimal, `float64`s use the shortest float encoding, slices are arrays and
string-keyed maps are objects with the keys sorted.  (A Go map iterates in
unspecified order and the encoder sorts the keys before emitting; here
each field is rendered first and the rendered pairs are sorted by key,
which emits the same text.) -/
def goMarshal : GoValue → String
  | GoValue.null => "null"
  | GoValue.bool b => if b then "true" else "false"
  | GoValue.str s => jsonQuote s
  | GoValue.int n => toString n
  | GoValue.float q => jsonFloatEncode q
  | GoValue.arr xs => "[" ++ joinComma (goMarshalList xs) ++ "]"
  | GoValue.map fs =>
      "\x7b" ++
        joinComma ((sortByKey (goMarshalFields fs)).map
          (fun kv => jsonQuote kv.1 ++ ":" ++ kv.2)) ++ "\x7d"

/-- Marshalled array elements, in order. -/
def goMarshalList : List GoValue → List String
  | [] => []
  | x :: rest => goMarshal x :: goMarshalList rest

/-- Object fields with marshalled values, in the given order. -/
def goMarshalFields : List (String × GoValue) → List (String × String)
  | [] => []
  | (k, v) :: rest => (k, goMarshal v) :: goMarshalFields rest

end

/-! ### Request-body field encoding (wialon.go lines 189-209) -/

/-- The `switch val := v.(type)` in `WialonAPICall`: a string verbatim, an
`int` via `strconv.Itoa`, a `float32`/`float64` via `fmt.Sprintf("%g", _)`,
everything else via `json.Marshal`. -/
def encodeGoValue : GoValue → String
  | GoValue.str s => s
  | GoValue.int n => toString n
  | GoValue.float q => goFormatG q
  | v => goMarshal v

/-- The `url.Values` built by the `for k, v := range w.DefaultParams` loop:
every field is `Set` to its encoded value.  (A Go map is iterated in
unspecified order; since the keys are distinct map keys, the resulting
`url.Values` does not depend on the order, and the model iterates in list
order.) -/
def urlValuesOf (ps : List (String × GoValue)) : List (String × String) :=
  foldSet encodeGoValue [] ps

/-! ### The client (wialon.go lines 49-163) -/

/-- The `Wialon` struct. -/
structure Wialon where
  Sid : String
  BaseAPIUrl : String
  DefaultParams : List (String × GoValue)

/-- `NewWialon`: assemble the base URL `scheme://host[:port]/wialon/ajax.html?`
(the `:` is prepended exactly when the port is nonempty). -/
def NewWialon (scheme host port sid : String)
    (extraParams : List (String × GoValue)) : Wialon :=
  let port' := if port ≠ "" then ":" ++ port else port
  { Sid := sid
    BaseAPIUrl := scheme ++ "://" ++ host ++ port' ++ "/wialon/ajax.html?"
    DefaultParams := extraParams }

/-- `NewDefaultWialon`. -/
def NewDefaultWialon : Wialon :=
  NewWialon "https" "hst-api.wialon.com" "" "" []

/-- `UpdateExtraParams`: `for k, v := range params { w.DefaultParams[k] = v }`. -/
def UpdateExtraParams (w : Wialon) (params : List (String × GoValue)) : Wialon :=
  { w with DefaultParams := foldSet id w.DefaultParams params }

/-! ### Error codes (wialon.go lines 26, 57-104, 226-233) -/

/-- `WialonError` is `int16`; codes are carried as integers and narrowed by
`toInt16` where the Go code converts.  The constants below are the
`iota`-derived and explicit values of the `WialonErrors` const block. -/
def InvalidSession : Int := 1
def InvalidService : Int := 2
def InvalidResult : Int := 3
def InvalidInput : Int := 4
def ErrPerformReq : Int := 5
def UnknownError : Int := 6
def AccessDenied : Int := 7
def InvalidUserNameOrPassword : Int := 8
def AuthServerUnavailable : Int := 9
def NoMsgForSelectedInterval : Int := 1001
def ItemAlreadyExists : Int := 1002
def OneReqAllowed : Int := 1003
def MsgLimitExceeded : Int := 1004
def ExecutionTimeExceeded : Int := 1005
def LimitAttemptsTwoFactAuth : Int := 1006
def IPChangedOrSessExpired : Int := 1011
def UserCannotBeBoundToAcc : Int := 2014
def SensDeletingForbidden : Int := 2015

/-- The `WialonErrors` description map. -/
def WialonErrors : List (Int × String) :=
  [(InvalidSession, "Invalid session"),
   (InvalidService, "Invalid service"),
   (InvalidResult, "Invalid result"),
   (InvalidInput, "Invalid input"),
   (ErrPerformReq, "Error performing request"),
   (UnknownError, "Unknown error"),
   (AccessDenied, "Access denied"),
   (InvalidUserNameOrPassword, "Invalid user name or password"),
   (AuthServerUnavailable,
     "Authorization server is unavailable, please try again later"),
   (NoMsgForSelectedInterval, "No message for selected interval"),
   (ItemAlreadyExists, "Item with such inique property already exists"),
   (OneReqAllowed, "Only one request of given time is allowed at the moment"),
   (MsgLimitExceeded, "Limit of messages has been exceeded"),
   (ExecutionTimeExceeded, "Execution time has exceeded the limit"),
   (LimitAttemptsTwoFactAuth,
     "Exceeding the limit of attempts to enter a two-factor authorization code"),
   (IPChangedOrSessExpired, "Your IP has changed or session has expired"),
   (UserCannotBeBoundToAcc,
     "Selected user is a creator for some system objects, thus this user cannot be bound to a new account"),
   (SensDeletingForbidden,
     "Sensor deleting is forbidden because of using in another sensor or advanced properties of the unit")]

/-- Lookup in an `Int`-keyed list (the `WialonErrors` Go map; a missing key
yields the zero value `""`). -/
def errLookup : List (Int × String) → Int → String
  | [], _ => ""
  | (e, msg) :: rest, k => if k = e then msg else errLookup rest k

/-- Go's conversion `int16(n)` of an integer: two's-complement truncation
to 16 bits. -/
def toInt16 (n : Int) : Int := (n + 32768) % 65536 - 32768

/-- Go's conversion `int(f)` of a `float64`: truncation toward zero. -/
def goInt (q : Rat) : Int := q.num.tdiv q.den

/-! ### The operations (wialon.go lines 126-233) -/

/-- The pure content of `WialonAPICall` (wialon.go lines 166-223): normalise
the service name (a too-short `unit_group` name panics, modelled `none`),
build the `sid`/`svc`/`params` request map, merge it into `DefaultParams`
by `UpdateExtraParams`, and encode every merged field for the
form-urlencoded POST body.  The HTTP exchange itself is external I/O; the
model returns the mutated client together with the encoded field map.
(`url.Parse` on a `NewWialon`-assembled URL never fails; the `json.Marshal`
panic cannot occur since every `GoValue` is serialisable.) -/
def WialonAPICall (w : Wialon) (action : String)
    (params : List (String × GoValue)) :
    Option (Wialon × List (String × String)) :=
  match normalizeSvc action with
  | none => none
  | some svc =>
      let reqParams : List (String × GoValue) :=
        [("sid", GoValue.str w.Sid),
         ("svc", GoValue.str svc),
         ("params", GoValue.map params)]
      let w' := UpdateExtraParams w reqParams
      some (w', urlValuesOf w'.DefaultParams)

/-- `Login`: dispatch `token_login` (which mutates `DefaultParams`), then
set `Sid` from a string `"eid"` field of the parsed response body and
report success, or leave `Sid` alone and report failure.  The response body
is the argument `body`; it is returned verbatim as the result. -/
def Login (w : Wialon) (token : String) (body : Option Jval) :
    Wialon × Option Jval × Bool :=
  match WialonAPICall w "token_login" [("token", GoValue.str token)] with
  | none => (w, none, false)  -- unreachable: "token_login" normalises fine
  | some (w', _) =>
      match lastGet (unmarshalObj body) "eid" with
      | some (Jval.str eid) => ({ w' with Sid := eid }, body, true)
      | _ => (w', body, false)

/-- `Logout`: dispatch `core_logout`, then clear `Sid` and report success
exactly when the parsed response body has a numeric `"error"` field `err`
with `int(err) == 0`. -/
def Logout (w : Wialon) (body : Option Jval) : Wialon × Option Jval × Bool :=
  match WialonAPICall w "core_logout" [] with
  | none => (w, none, false)  -- unreachable: "core_logout" normalises fine
  | some (w', _) =>
      match lastGet (unmarshalObj body) "error" with
      | some (Jval.num err) =>
          if goInt err = 0 then ({ w' with Sid := "" }, body, true)
          else (w', body, false)
      | _ => (w', body, false)

/-- `ErrorHandler`: parse the result, read the `"error"` field as a
`float64` (zero when missing or not a number), convert through
`int` and `int16` to a `WialonError`, and look up its description
(the empty string for an unknown code). -/
def ErrorHandler (res : Option Jval) : Int × String :=
  let errResult := unmarshalObj res
  let loginError : Rat :=
    match lastGet errResult "error" with
    | some (Jval.num q) => q
    | _ => 0
  let we := toInt16 (goInt loginError)
  (we, errLookup WialonErrors we)

/-! ### Helper lemmas -/

theorem mapGet_mapSet {α : Type} (m : List (String × α)) (k k' : String) (v : α) :
    mapGet (mapSet m k v) k' = if k' = k then some v else mapGet m k' := by
  induction m with
  | nil =>
      by_cases h : k' = k <;> simp [mapSet, mapGet, h]
  | cons p rest ih =>
      obtain ⟨k₀, v₀⟩ := p
      by_cases h0 : k₀ = k
      · subst h0
        by_cases h : k' = k₀ <;> simp [mapSet, mapGet, h]
      · by_cases h : k' = k₀
        · subst h
          simp [mapSet, mapGet, h0]
        · simp [mapSet, mapGet, h0, h, ih]

theorem mapGet_foldSet {α β : Type} (f : α → β) (ps : List (String × α))
    (m : List (String × β)) (k : String) :
    mapGet (foldSet f m ps) k =
      match lastGet ps k with
      | some v => some (f v)
      | none => mapGet m k := by
  induction ps generalizing m with
  | nil => simp [foldSet, lastGet]
  | cons p rest ih =>
      obtain ⟨k₀, v₀⟩ := p
      show mapGet (foldSet f (mapSet m k₀ (f v₀)) rest) k = _
      rw [ih]
      cases hrest : lastGet rest k with
      | some w => simp [lastGet, hrest]
      | none =>
          by_cases hk : k = k₀
          · subst hk
            simp [lastGet, hrest, mapGet_mapSet]
          · simp [lastGet, hrest, mapGet_mapSet, hk]

theorem goInt_intCast (n : Int) : goInt (n : Rat) = n := by
  simp [goInt, Rat.num_intCast, Rat.den_intCast]

theorem updateExtraParams_sid (w : Wialon) (ps : List (String × GoValue)) :
    (UpdateExtraParams w ps).Sid = w.Sid := rfl

theorem mapGet_updateExtraParams (w : Wialon) (ps : List (String × GoValue))
    (k : String) :
    mapGet (UpdateExtraParams w ps).DefaultParams k =
      match lastGet ps k with
      | some v => some v
      | none => mapGet w.DefaultParams k := by
  show mapGet (foldSet id w.DefaultParams ps) k = _
  rw [mapGet_foldSet]
  cases lastGet ps k <;> rfl

theorem wialonAPICall_eq (w : Wialon) (action svc : String)
    (params : List (String × GoValue)) (h : normalizeSvc action = some svc) :
    WialonAPICall w action params =
      some (UpdateExtraParams w
              [("sid", GoValue.str w.Sid), ("svc", GoValue.str svc),
               ("params", GoValue.map params)],
            urlValuesOf (UpdateExtraParams w
              [("sid", GoValue.str w.Sid), ("svc", GoValue.str svc),
               ("params", GoValue.map params)]).DefaultParams) := by
  simp [WialonAPICall, h]

theorem login_eq (w : Wialon) (token : String) (body : Option Jval) :
    Login w token body =
      (match lastGet (unmarshalObj body) "eid" with
       | some (Jval.str eid) =>
           ({ UpdateExtraParams w
                [("sid", GoValue.str w.Sid), ("svc", GoValue.str "token/login"),
                 ("params", GoValue.map [("token", GoValue.str token)])] with
              Sid := eid }, body, true)
       | _ =>
           (UpdateExtraParams w
              [("sid", GoValue.str w.Sid), ("svc", GoValue.str "token/login"),
               ("params", GoValue.map [("token", GoValue.str token)])],
            body, false)) := by
  rw [Login, wialonAPICall_eq _ _ _ _
    (by decide : normalizeSvc "token_login" = some "token/login")]

theorem logout_eq (w : Wialon) (body : Option Jval) :
    Logout w body =
      (match lastGet (unmarshalObj body) "error" with
       | some (Jval.num err) =>
           if goInt err = 0 then
             ({ UpdateExtraParams w
                  [("sid", GoValue.str w.Sid), ("svc", GoValue.str "core/logout"),
                   ("params", GoValue.map [])] with
                Sid := "" }, body, true)
           else
             (UpdateExtraParams w
                [("sid", GoValue.str w.Sid), ("svc", GoValue.str "core/logout"),
                 ("params", GoValue.map [])], body, false)
       | _ =>
           (UpdateExtraParams w
              [("sid", GoValue.str w.Sid), ("svc", GoValue.str "core/logout"),
               ("params", GoValue.map [])], body, false)) := by
  rw [Logout, wialonAPICall_eq _ _ _ _
    (by decide : normalizeSvc "core_logout" = some "core/logout")]

theorem errorHandler_num (q : Rat) :
    ErrorHandler (some (Jval.obj [("error", Jval.num q)])) =
      (toInt16 (goInt q), errLookup WialonErrors (toInt16 (goInt q))) := rfl

theorem errorHandler_notNum (body : Option Jval)
    (h : ∀ q, lastGet (unmarshalObj body) "error" ≠ some (Jval.num q)) :
    ErrorHandler body = (0, "") := by
  unfold ErrorHandler
  cases hb : lastGet (unmarshalObj body) "error" with
  | none => simp [hb]; decide
  | some v =>
      cases v with
      | num q => exact absurd hb (h q)
      | null => simp [hb]; decide
      | bool b => simp [hb]; decide
      | str s => simp [hb]; decide
      | arr xs => simp [hb]; decide
      | obj fs => simp [hb]; decide

theorem replaceFirstUS_split (l r : List Char) (h : '_' ∉ l) :
    replaceFirstUS (l ++ '_' :: r) = l ++ '/' :: r := by
  induction l with
  | nil => simp [replaceFirstUS]
  | cons c t ih =>
      have hc : ¬ c = '_' := fun e => h (by simp [e])
      have ht : '_' ∉ t := fun m => h (List.mem_cons_of_mem _ m)
      simp [replaceFirstUS, hc, ih ht]

theorem goReplaceFirst_split (u v : String) (hu : '_' ∉ u.toList) :
    goReplaceFirst (u ++ "_" ++ v) = u ++ "/" ++ v := by
  apply String.ext
  show replaceFirstUS ((u.data ++ ['_']) ++ v.data) = (u.data ++ ['/']) ++ v.data
  rw [List.append_assoc, List.append_assoc]
  exact replaceFirstUS_split u.data v.data hu

theorem wialonAPICall_state (w : Wialon) (a : String)
    (p : List (String × GoValue)) (w' : Wialon) (out : List (String × String))
    (h : WialonAPICall w a p = some (w', out)) :
    ∃ svc, normalizeSvc a = some svc ∧
      w' = UpdateExtraParams w
        [("sid", GoValue.str w.Sid), ("svc", GoValue.str svc),
         ("params", GoValue.map p)] := by
  cases hn : normalizeSvc a with
  | none => simp [WialonAPICall, hn] at h
  | some svc =>
      refine ⟨svc, rfl, ?_⟩
      rw [wialonAPICall_eq w a svc p hn] at h
      injection h with h1
      exact (congrArg Prod.fst h1).symm

theorem lastGet_req_none (a b c : GoValue) (k : String)
    (h1 : ¬ k = "sid") (h2 : ¬ k = "svc") (h3 : ¬ k = "params") :
    lastGet [("sid", a), ("svc", b), ("params", c)] k = none := by
  simp [lastGet, h1, h2, h3]

/-! ### The claims -/

/-- C1 counterexample: on the action `"unit_groups_create"` (which starts
with the literal `unit_group`), the code does NOT insert a slash
immediately after the ten-character literal — that would give
`unit_group/s_create` — it drops the character at index 10 and puts the
slash in its place, giving `unit_group/_create`. -/
theorem C1_counterexample :
    normalizeSvc "unit_groups_create" ≠
        some (claimC1NormalizeSvc "unit_groups_create")
      ∧ claimC1NormalizeSvc "unit_groups_create" = "unit_group/s_create"
      ∧ normalizeSvc "unit_groups_create" = some "unit_group/_create" := by
  refine ⟨by decide, by decide, by decide⟩

/-- C1 (amended): for a name starting with the literal `unit_group` and
strictly longer than it, the normalised service name is the ten-character
literal, a slash, and the rest of the name after dropping the character at
index 10 (the underscore, in the intended family) — the slash replaces
that character rather than being inserted after the literal.  Otherwise,
for a name containing exactly one underscore, that underscore is replaced
by a slash and nothing else in the name changes. -/
theorem C1_normalize_amended :
    (∀ s, strHasPfx "unit_group" s = true → 10 < s.length →
        normalizeSvc s = some (s.take 10 ++ "/" ++ s.drop 11))
    ∧ (∀ u v : String,
        strHasPfx "unit_group" (u ++ "_" ++ v) = false →
        '_' ∉ u.toList → '_' ∉ v.toList →
        normalizeSvc (u ++ "_" ++ v) = some (u ++ "/" ++ v)) := by
  constructor
  · intro s h hl
    rw [normalizeSvc, if_pos (by simp [h]), if_neg (by omega)]
  · intro u v h hu hv
    rw [normalizeSvc, if_neg (by simp [h]), goReplaceFirst_split u v hu]

/-- Witness for C1 (amended), at `"unit_group_get_units"` and
`"core" ++ "_" ++ "logout"`. -/
theorem C1_normalize_amended_witness :
    (strHasPfx "unit_group" "unit_group_get_units" = true
      ∧ 10 < ("unit_group_get_units" : String).length
      ∧ normalizeSvc "unit_group_get_units" =
          some (("unit_group_get_units" : String).take 10 ++ "/" ++
            ("unit_group_get_units" : String).drop 11))
    ∧ (strHasPfx "unit_group" ("core" ++ "_" ++ "logout") = false
      ∧ normalizeSvc ("core" ++ "_" ++ "logout") =
          some ("core" ++ "/" ++ "logout")) :=
  ⟨⟨by decide, by decide,
     C1_normalize_amended.1 "unit_group_get_units" (by decide) (by decide)⟩,
   ⟨by decide,
     C1_normalize_amended.2 "core" "logout" (by decide) (by decide) (by decide)⟩⟩

/-- C2: a `Login` whose response body has a string `"eid"` field sets `Sid`
to it and reports success; any other body (no `"eid"`, a non-string
`"eid"`, an error body, or invalid JSON, i.e. `none`) leaves `Sid`
unchanged and reports failure; the raw result is returned in all cases.
Concretely: body `eid:"abc123"` yields `Sid = "abc123"` and `true`; body
`error:4` leaves `Sid` unchanged and yields `false`. -/
theorem C2_login :
    (∀ w token body eid,
        lastGet (unmarshalObj body) "eid" = some (Jval.str eid) →
          (Login w token body).1.Sid = eid
          ∧ (Login w token body).2.2 = true
          ∧ (Login w token body).2.1 = body)
    ∧ (∀ w token body,
        (∀ eid, lastGet (unmarshalObj body) "eid" ≠ some (Jval.str eid)) →
          (Login w token body).1.Sid = w.Sid
          ∧ (Login w token body).2.2 = false
          ∧ (Login w token body).2.1 = body)
    ∧ (∀ w token,
        (Login w token (some (Jval.obj [("eid", Jval.str "abc123")]))).1.Sid =
            "abc123"
        ∧ (Login w token (some (Jval.obj [("eid", Jval.str "abc123")]))).2.2 =
            true)
    ∧ (∀ w token,
        (Login w token (some (Jval.obj [("error", Jval.num 4)]))).1.Sid = w.Sid
        ∧ (Login w token (some (Jval.obj [("error", Jval.num 4)]))).2.2 =
            false) := by
  refine ⟨?_, ?_, ?_, ?_⟩
  · intro w token body eid h
    rw [login_eq, h]
    exact ⟨rfl, rfl, rfl⟩
  · intro w token body h
    rw [login_eq]
    cases hb : lastGet (unmarshalObj body) "eid" with
    | none => exact ⟨rfl, rfl, rfl⟩
    | some v =>
        cases v with
        | str eid => exact absurd hb (h eid)
        | null => exact ⟨rfl, rfl, rfl⟩
        | bool b => exact ⟨rfl, rfl, rfl⟩
        | num q => exact ⟨rfl, rfl, rfl⟩
        | arr xs => exact ⟨rfl, rfl, rfl⟩
        | obj fs => exact ⟨rfl, rfl, rfl⟩
  · intro w token
    rw [login_eq]
    exact ⟨rfl, rfl⟩
  · intro w token
    rw [login_eq]
    exact ⟨rfl, rfl⟩

/-- Witness for C2, at the body `eid:"E"` from a client with session
`"old"`. -/
theorem C2_login_witness :
    lastGet (unmarshalObj (some (Jval.obj [("eid", Jval.str "E")]))) "eid" =
        some (Jval.str "E")
    ∧ ((Login (Wialon.mk "old" "u" []) "tok"
          (some (Jval.obj [("eid", Jval.str "E")]))).1.Sid = "E"
       ∧ (Login (Wialon.mk "old" "u" []) "tok"
          (some (Jval.obj [("eid", Jval.str "E")]))).2.2 = true
       ∧ (Login (Wialon.mk "old" "u" []) "tok"
          (some (Jval.obj [("eid", Jval.str "E")]))).2.1 =
            some (Jval.obj [("eid", Jval.str "E")])) :=
  ⟨rfl, C2_login.1 (Wialon.mk "old" "u" []) "tok"
    (some (Jval.obj [("eid", Jval.str "E")])) "E" rfl⟩

/-- C3 counterexample: the body `error:1/2` carries a NON-ZERO numeric
error, yet `Logout` clears the session and reports success, because the
code tests `int(err) == 0` and the Go conversion `int(0.5)` truncates to
`0`.  The claim says any body with a non-zero error leaves `Sid` unchanged
and reports failure. -/
theorem C3_counterexample :
    (mkRat 1 2 : Rat) ≠ 0
    ∧ (Logout (Wialon.mk "sess" "u" [])
        (some (Jval.obj [("error", Jval.num (mkRat 1 2))]))).2.2 = true
    ∧ (Logout (Wialon.mk "sess" "u" [])
        (some (Jval.obj [("error", Jval.num (mkRat 1 2))]))).1.Sid = "" := by
  refine ⟨by decide, by decide, by decide⟩

/-- C3 (amended): `Logout` clears `Sid` and reports success exactly when
the parsed body has a numeric `"error"` field whose truncation to an
integer (Go's `int(err)`) is zero; for every other body — a numeric error
not truncating to zero, a non-numeric error, a missing `"error"` field, an
empty object, or invalid JSON (`none`) — `Sid` is left unchanged and
failure is reported; the raw result is returned in all cases.  Concretely:
`error:0` clears the session and succeeds; `error:1` and `\x7b\x7d` leave
it unchanged and fail. -/
theorem C3_logout_amended :
    (∀ w body err,
        lastGet (unmarshalObj body) "error" = some (Jval.num err) →
        goInt err = 0 →
          (Logout w body).1.Sid = ""
          ∧ (Logout w body).2.2 = true
          ∧ (Logout w body).2.1 = body)
    ∧ (∀ w body err,
        lastGet (unmarshalObj body) "error" = some (Jval.num err) →
        goInt err ≠ 0 →
          (Logout w body).1.Sid = w.Sid
          ∧ (Logout w body).2.2 = false
          ∧ (Logout w body).2.1 = body)
    ∧ (∀ w body,
        (∀ err, lastGet (unmarshalObj body) "error" ≠ some (Jval.num err)) →
          (Logout w body).1.Sid = w.Sid
          ∧ (Logout w body).2.2 = false
          ∧ (Logout w body).2.1 = body)
    ∧ (∀ w, (Logout w (some (Jval.obj [("error", Jval.num 0)]))).1.Sid = ""
        ∧ (Logout w (some (Jval.obj [("error", Jval.num 0)]))).2.2 = true)
    ∧ (∀ w, (Logout w (some (Jval.obj [("error", Jval.num 1)]))).1.Sid = w.Sid
        ∧ (Logout w (some (Jval.obj [("error", Jval.num 1)]))).2.2 = false)
    ∧ (∀ w, (Logout w (some (Jval.obj []))).1.Sid = w.Sid
        ∧ (Logout w (some (Jval.obj []))).2.2 = false) := by
  refine ⟨?_, ?_, ?_, ?_, ?_, ?_⟩
  · intro w body err h h0
    rw [logout_eq, h]
    simp [h0]
  · intro w body err h h0
    rw [logout_eq, h]
    simp [h0, updateExtraParams_sid]
  · intro w body h
    rw [logout_eq]
    cases hb : lastGet (unmarshalObj body) "error" with
    | none => exact ⟨rfl, rfl, rfl⟩
    | some v =>
        cases v with
        | num q => exact absurd hb (h q)
        | null => exact ⟨rfl, rfl, rfl⟩
        | bool b => exact ⟨rfl, rfl, rfl⟩
        | str s => exact ⟨rfl, rfl, rfl⟩
        | arr xs => exact ⟨rfl, rfl, rfl⟩
        | obj fs => exact ⟨rfl, rfl, rfl⟩
  · intro w
    rw [logout_eq]
    exact ⟨rfl, rfl⟩
  · intro w
    rw [logout_eq]
    exact ⟨rfl, rfl⟩
  · intro w
    rw [logout_eq]
    exact ⟨rfl, rfl⟩

/-- Witness for C3 (amended), at the body `error:0` from a client with
session `"sess"`. -/
theorem C3_logout_amended_witness :
    lastGet (unmarshalObj (some (Jval.obj [("error", Jval.num 0)]))) "error" =
        some (Jval.num 0)
    ∧ goInt 0 = 0
    ∧ ((Logout (Wialon.mk "sess" "u" [])
          (some (Jval.obj [("error", Jval.num 0)]))).1.Sid = ""
       ∧ (Logout (Wialon.mk "sess" "u" [])
          (some (Jval.obj [("error", Jval.num 0)]))).2.2 = true
       ∧ (Logout (Wialon.mk "sess" "u" [])
          (some (Jval.obj [("error", Jval.num 0)]))).2.1 =
            some (Jval.obj [("error", Jval.num 0)])) :=
  ⟨rfl, rfl, C3_logout_amended.1 (Wialon.mk "sess" "u" [])
    (some (Jval.obj [("error", Jval.num 0)])) 0 rfl rfl⟩

/-- C4: `ErrorHandler` is a total function.  On the body `error:7` it
returns `AccessDenied` and `"Access denied"`; for every code of the
`WialonErrors` table it returns that code's canonical description; and on
the empty object, invalid JSON (`none`), or any body whose `"error"` field
is missing or not a number, it returns the zero code with the empty
description. -/
theorem C4_errorHandler :
    ErrorHandler (some (Jval.obj [("error", Jval.num ((7 : Int) : Rat))])) =
        (AccessDenied, "Access denied")
    ∧ (∀ e msg, (e, msg) ∈ WialonErrors →
        ErrorHandler (some (Jval.obj [("error", Jval.num (e : Rat))])) =
          (e, msg))
    ∧ ErrorHandler (some (Jval.obj [])) = (0, "")
    ∧ ErrorHandler none = (0, "")
    ∧ (∀ body,
        (∀ q, lastGet (unmarshalObj body) "error" ≠ some (Jval.num q)) →
        ErrorHandler body = (0, "")) := by
  refine ⟨?_, ?_, by decide, by decide, errorHandler_notNum⟩
  · rw [errorHandler_num, goInt_intCast]
    decide
  · intro e msg h
    rw [errorHandler_num, goInt_intCast]
    fin_cases h <;> decide

/-- Witness for C4, at the code `AuthServerUnavailable`. -/
theorem C4_errorHandler_witness :
    ((9 : Int), "Authorization server is unavailable, please try again later")
        ∈ WialonErrors
    ∧ ErrorHandler (some (Jval.obj [("error", Jval.num ((9 : Int) : Rat))])) =
        (9, "Authorization server is unavailable, please try again later") :=
  ⟨by decide, C4_errorHandler.2.1 9
    "Authorization server is unavailable, please try again later" (by decide)⟩

/-- C10: `ErrorHandler` narrows the integer value of the `"error"` field to
a 16-bit signed code (reduction modulo `2 ^ 16`, interpreted as signed), so
two bodies whose integer error values differ by a multiple of `65536` give
the same code and description; concretely, `error:65543` yields code `7`
and `"Access denied"`. -/
theorem C10_int16_narrowing :
    (∀ n : Int,
        (ErrorHandler (some (Jval.obj [("error", Jval.num (n : Rat))]))).1 =
          (n + 32768) % 65536 - 32768)
    ∧ (∀ n k : Int,
        ErrorHandler
            (some (Jval.obj [("error", Jval.num ((n + 65536 * k : Int) : Rat))])) =
          ErrorHandler (some (Jval.obj [("error", Jval.num (n : Rat))])))
    ∧ ErrorHandler (some (Jval.obj [("error", Jval.num 65543)])) =
        (7, "Access denied") := by
  refine ⟨?_, ?_, by decide⟩
  · intro n
    rw [errorHandler_num, goInt_intCast]
    rfl
  · intro n k
    have h : toInt16 (n + 65536 * k) = toInt16 n := by
      unfold toInt16
      omega
    rw [errorHandler_num, errorHandler_num, goInt_intCast, goInt_intCast, h]

/-- C5: in the field map posted by `WialonAPICall`, every merged parameter
value is encoded by its type — a string verbatim, an `int` in decimal
(`5` as `"5"`), a float by `%g` (`1.5` as `"1.5"`), and every other value
(maps, nested structures, booleans) as its `json.Marshal` text (the nested
map `b:2` as the JSON text). -/
theorem C5_paramEncoding :
    (∀ ps k, mapGet (urlValuesOf ps) k = (lastGet ps k).map encodeGoValue)
    ∧ (∀ s, encodeGoValue (GoValue.str s) = s)
    ∧ encodeGoValue (GoValue.int 5) = "5"
    ∧ (∀ n : Int, encodeGoValue (GoValue.int n) = toString n)
    ∧ encodeGoValue (GoValue.float ((3 : Rat) / 2)) = "1.5"
    ∧ (∀ q, encodeGoValue (GoValue.float q) = goFormatG q)
    ∧ encodeGoValue (GoValue.map [("b", GoValue.int 2)]) = "\x7b\"b\":2\x7d"
    ∧ encodeGoValue (GoValue.bool true) = "true"
    ∧ (∀ fs, encodeGoValue (GoValue.map fs) = goMarshal (GoValue.map fs))
    ∧ (∀ b, encodeGoValue (GoValue.bool b) = goMarshal (GoValue.bool b)) := by
  refine ⟨?_, fun s => rfl, by decide, fun n => rfl, ?_, fun q => rfl, ?_,
    ?_, fun fs => rfl, fun b => rfl⟩
  · intro ps k
    show mapGet (foldSet encodeGoValue [] ps) k = _
    rw [mapGet_foldSet]
    cases lastGet ps k <;> rfl
  · have h32 : ((3 : Rat) / 2) = mkRat 3 2 := by
      rw [Rat.mkRat_eq_div]
      norm_num
    rw [h32]
    decide
  · show goMarshal (GoValue.map [("b", GoValue.int 2)]) = _
    simp [goMarshal, goMarshalFields, sortByKey, insertByKey, joinComma,
      jsonQuote, escapeChar, String.join]
    decide
  · show goMarshal (GoValue.bool true) = _
    simp [goMarshal]

/-- C6: `NewWialon` with scheme `https`, host `example.com` and empty port
yields the base URL with no port segment; with port `443` the segment
`:443` appears; in general the `:port` segment is present exactly when the
port argument is nonempty. -/
theorem C6_newWialon_baseUrl :
    (NewWialon "https" "example.com" "" "" []).BaseAPIUrl =
        "https://example.com/wialon/ajax.html?"
    ∧ (NewWialon "https" "example.com" "443" "" []).BaseAPIUrl =
        "https://example.com:443/wialon/ajax.html?"
    ∧ ∀ scheme host port sid ps,
        (NewWialon scheme host port sid ps).BaseAPIUrl =
          scheme ++ "://" ++ host ++
            (if port = "" then "" else ":" ++ port) ++ "/wialon/ajax.html?" := by
  refine ⟨by decide, by decide, ?_⟩
  intro scheme host port sid ps
  by_cases h : port = "" <;> simp [NewWialon, h]

/-- C7: `UpdateExtraParams` merges the argument into `DefaultParams` with
last write wins and cannot fail: a key bound in the argument ends up with
its (last) argument value, a key not mentioned keeps its previous value,
and updating `a` to `1` and then to `2` leaves `a` bound to `2`. -/
theorem C7_updateExtraParams :
    (∀ w ps k v, lastGet ps k = some v →
        mapGet (UpdateExtraParams w ps).DefaultParams k = some v)
    ∧ (∀ w ps k, lastGet ps k = none →
        mapGet (UpdateExtraParams w ps).DefaultParams k =
          mapGet w.DefaultParams k)
    ∧ (∀ w, mapGet (UpdateExtraParams
          (UpdateExtraParams w [("a", GoValue.int 1)])
          [("a", GoValue.int 2)]).DefaultParams "a" = some (GoValue.int 2)) := by
  refine ⟨?_, ?_, ?_⟩
  · intro w ps k v h
    rw [mapGet_updateExtraParams, h]
  · intro w ps k h
    rw [mapGet_updateExtraParams, h]
  · intro w
    rw [mapGet_updateExtraParams]
    rfl

/-- Witness for C7: a key absent from the argument keeps its value. -/
theorem C7_updateExtraParams_witness :
    lastGet [("a", GoValue.int 2)] "b" = none
    ∧ mapGet (UpdateExtraParams (Wialon.mk "" "u" [("b", GoValue.int 7)])
        [("a", GoValue.int 2)]).DefaultParams "b" =
      mapGet (Wialon.mk "" "u" [("b", GoValue.int 7)]).DefaultParams "b" :=
  ⟨rfl, C7_updateExtraParams.2.1 (Wialon.mk "" "u" [("b", GoValue.int 7)])
    [("a", GoValue.int 2)] "b" rfl⟩

/-- C8: dispatching the action that is exactly the string `unit_group`
panics inside the service-name normalisation (`svc[11:]` is out of range),
modelled as `none`, before any request is built; on the `unit_group`
family the normalisation is defined exactly for names strictly longer than
the ten-character literal. -/
theorem C8_unitGroupNotTotal :
    (∀ w ps, WialonAPICall w "unit_group" ps = none)
    ∧ (∀ s, strHasPfx "unit_group" s = true →
        ((normalizeSvc s).isSome ↔ 10 < s.length)) := by
  constructor
  · intro w ps
    simp [WialonAPICall, show normalizeSvc "unit_group" = none from by decide]
  · intro s h
    rw [normalizeSvc, if_pos (by simp [h])]
    by_cases hl : s.length < 11
    · rw [if_pos hl]
      simp
      omega
    · rw [if_neg hl]
      simp
      omega

/-- Witness for C8, at the action `"unit_groups"` (eleven characters). -/
theorem C8_unitGroupNotTotal_witness :
    WialonAPICall (Wialon.mk "" "u" []) "unit_group" [] = none
    ∧ strHasPfx "unit_group" "unit_groups" = true
    ∧ ((normalizeSvc "unit_groups").isSome ↔
        10 < ("unit_groups" : String).length) :=
  ⟨C8_unitGroupNotTotal.1 (Wialon.mk "" "u" []) [],
   by decide,
   C8_unitGroupNotTotal.2 "unit_groups" (by decide)⟩

/-- C9: a successful `WialonAPICall` permanently overwrites the `sid`,
`svc` and `params` entries of `DefaultParams` with that call's session id,
normalised service name and parameter map, leaves every other key
unchanged, and a subsequent call overwrites the three entries again with
its own values while leaving other keys untouched. -/
theorem C9_defaultParams_frame :
    ∀ w a₁ p₁ w₁ o₁ a₂ p₂ w₂ o₂,
      WialonAPICall w a₁ p₁ = some (w₁, o₁) →
      WialonAPICall w₁ a₂ p₂ = some (w₂, o₂) →
      mapGet w₁.DefaultParams "sid" = some (GoValue.str w.Sid)
      ∧ mapGet w₁.DefaultParams "svc" = (normalizeSvc a₁).map GoValue.str
      ∧ mapGet w₁.DefaultParams "params" = some (GoValue.map p₁)
      ∧ (∀ k, ¬ k = "sid" → ¬ k = "svc" → ¬ k = "params" →
          mapGet w₁.DefaultParams k = mapGet w.DefaultParams k)
      ∧ mapGet w₂.DefaultParams "sid" = some (GoValue.str w₁.Sid)
      ∧ mapGet w₂.DefaultParams "svc" = (normalizeSvc a₂).map GoValue.str
      ∧ mapGet w₂.DefaultParams "params" = some (GoValue.map p₂)
      ∧ (∀ k, ¬ k = "sid" → ¬ k = "svc" → ¬ k = "params" →
          mapGet w₂.DefaultParams k = mapGet w₁.DefaultParams k) := by
  intro w a₁ p₁ w₁ o₁ a₂ p₂ w₂ o₂ h₁ h₂
  obtain ⟨svc₁, hn₁, hw₁⟩ := wialonAPICall_state _ _ _ _ _ h₁
  obtain ⟨svc₂, hn₂, hw₂⟩ := wialonAPICall_state _ _ _ _ _ h₂
  subst hw₁
  subst hw₂
  rw [hn₁, hn₂]
  refine ⟨?_, ?_, ?_, ?_, ?_, ?_, ?_, ?_⟩
  · rw [mapGet_updateExtraParams]; rfl
  · rw [mapGet_updateExtraParams]; rfl
  · rw [mapGet_updateExtraParams]; rfl
  · intro k h1 h2 h3
    rw [mapGet_updateExtraParams, lastGet_req_none _ _ _ _ h1 h2 h3]
  · rw [mapGet_updateExtraParams]; rfl
  · rw [mapGet_updateExtraParams]; rfl
  · rw [mapGet_updateExtraParams]; rfl
  · intro k h1 h2 h3
    rw [mapGet_updateExtraParams, lastGet_req_none _ _ _ _ h1 h2 h3]

/-- Witness for C9: two consecutive calls from a concrete client; after the
first call the `sid` entry holds the caller's session id. -/
theorem C9_defaultParams_frame_witness :
    mapGet (UpdateExtraParams (Wialon.mk "S" "u" [("x", GoValue.int 9)])
      [("sid", GoValue.str "S"), ("svc", GoValue.str "core/logout"),
       ("params", GoValue.map [])]).DefaultParams "sid" =
      some (GoValue.str "S") :=
  (C9_defaultParams_frame (Wialon.mk "S" "u" [("x", GoValue.int 9)])
    "core_logout" [] _ _ "token_login" [] _ _
    (wialonAPICall_eq _ _ _ _
      (by decide : normalizeSvc "core_logout" = some "core/logout"))
    (wialonAPICall_eq _ _ _ _
      (by decide : normalizeSvc "token_login" = some "token/login"))).1

end Wialongo
